import Mathlib

/-!
Verification development for the database connection-pool and query-execution
core of the DbAi backend (services/database-manager.ts, services/database-utils.ts,
and the query-timeout utilities).

JavaScript strings are modelled as lists of characters; the asynchronous driver
calls are modelled by explicit outcome oracles (each native operation either
succeeds or fails, and a settling promise carries a duration raced against the
timeout timer); the JS `Map` of pools is modelled as an insertion-ordered
association list with `Map.get`/`Map.set`/`Map.delete` operations.
-/

namespace DbAi

/-- A JavaScript string, modelled as its list of characters. -/
abbrev JStr := List Char

/-- Embeds `String.prototype.toLowerCase()`: lowercases every character. -/
def lowerStr (s : JStr) : JStr := s.map Char.toLower

/-- Embeds `String.prototype.trim()`: strips whitespace from both ends. -/
def trimStr (s : JStr) : JStr :=
  ((s.dropWhile Char.isWhitespace).reverse.dropWhile Char.isWhitespace).reverse

/-- Embeds `s.includes(pat)`: substring containment. -/
def includesStr (s pat : JStr) : Bool := decide (pat <:+: s)

/-- Embeds `s.startsWith(pat)`. -/
def startsWithStr (s pat : JStr) : Bool := decide (pat <+: s)

/-- Helper for `countOccurrences`: scans one character at a time; `skip`
is the number of positions still covered by the previous match (a match at
a position consumes the next `pat.length - 1` positions, so matches never
overlap). -/
def countOccAux (pat : JStr) : JStr → Nat → Nat
  | [], _ => 0
  | c :: rest, skip =>
    match skip with
    | Nat.succ k => countOccAux pat rest k
    | 0 =>
      if startsWithStr (c :: rest) pat then
        countOccAux pat rest (pat.length - 1) + 1
      else
        countOccAux pat rest 0

/-- Embeds `(s.match(/pat/g) || []).length` for a constant nonempty
pattern `pat`: the number of non-overlapping occurrences, scanning left to
right. -/
def countOccurrences (pat : JStr) (s : JStr) : Nat := countOccAux pat s 0

/-! ## query-timeout-utils: the timeout tier classifier -/

/-- The `TimeoutConfig` interface of query-timeout-utils. -/
structure TimeoutConfig where
  defaultTier : Int
  simple : Int
  complex : Int
  ddl : Int
  longRunning : Int

/-- The constant `DEFAULT_TIMEOUT_CONFIG`: 2 min default, 5 min simple, 15 min complex,
30 min DDL, 1 h long-running (all in milliseconds). -/
def DEFAULT_TIMEOUT_CONFIG : TimeoutConfig :=
  ⟨120000, 300000, 900000, 1800000, 3600000⟩

/-- The DDL keyword list of `isDDLQuery`. -/
def ddlKeywords : List JStr :=
  ["create index".toList, "drop index".toList, "alter table".toList,
   "create table".toList, "drop table".toList, "vacuum".toList,
   "reindex".toList, "analyze".toList]

/-- Embeds `isDDLQuery`: the (already lowercased, trimmed) query contains
some DDL keyword. -/
def isDDLQuery (query : JStr) : Bool :=
  ddlKeywords.any fun kw => includesStr query kw

/-- The aggregation-marker list of `isAnalyticsQuery`. -/
def analyticsIndicators : List JStr :=
  ["count(*)".toList, "sum(".toList, "avg(".toList, "max(".toList,
   "min(".toList, "stddev(".toList, "variance(".toList]

/-- Embeds `isAnalyticsQuery`: an aggregation marker AND
(`group by` OR more than two occurrences of `join`). -/
def isAnalyticsQuery (query : JStr) : Bool :=
  (analyticsIndicators.any fun ind => includesStr query ind) &&
    (includesStr query "group by".toList ||
      decide (countOccurrences "join".toList query > 2))

/-- The complexity-indicator list of `isComplexQuery`. -/
def complexIndicators : List JStr :=
  ["join".toList, "union".toList, "group by".toList, "order by".toList,
   "having".toList, "distinct".toList, "exists".toList, "not exists".toList,
   "in (".toList, "not in (".toList, "case when".toList, "window".toList,
   "over (".toList, "with ".toList]

/-- Embeds `isComplexQuery`. -/
def isComplexQuery (query : JStr) : Bool :=
  complexIndicators.any fun ind => includesStr query ind

/-- Embeds `isSimpleSelectQuery`: starts with `select` and is neither
complex nor analytics. -/
def isSimpleSelectQuery (query : JStr) : Bool :=
  startsWithStr query "select".toList && !isComplexQuery query &&
    !isAnalyticsQuery query

/-- The normalization `sqlQuery.toLowerCase().trim()` applied by
`determineQueryTimeout` before classification. -/
def normalizeQuery (s : JStr) : JStr := trimStr (lowerStr s)

/-- Embeds `determineQueryTimeout`: the five-tier priority cascade
DDL → analytics → complex → simple select → default. -/
def determineQueryTimeout (sqlQuery : JStr) (config : TimeoutConfig) : Int :=
  let query := normalizeQuery sqlQuery
  if isDDLQuery query then config.ddl
  else if isAnalyticsQuery query then config.longRunning
  else if isComplexQuery query then config.complex
  else if isSimpleSelectQuery query then config.simple
  else config.defaultTier

/-! ## query-timeout-utils: withTimeout -/

/-- The behaviour of one native driver call, abstracted as the value it
settles with and the (wall-clock) duration after which it settles:
it resolves with a value of type `α` or rejects with an error message. -/
inductive NativeOutcome (α : Type) where
  | ok (value : α) (duration : Int)
  | fail (msg : JStr) (duration : Int)

/-- The time after which the native call settles. -/
def NativeOutcome.duration {α : Type} : NativeOutcome α → Int
  | .ok _ d => d
  | .fail _ d => d

/-- Embeds `withTimeout(promise, timeoutMs, timeoutMessage)`: a
`Promise.race` between the native call and a timer that rejects with
`timeoutMessage` after `timeoutMs`. The native call wins exactly when it
settles strictly before the timer fires. -/
def withTimeout {α : Type} (outcome : NativeOutcome α) (timeoutMs : Int)
    (timeoutMessage : JStr) : Except JStr α :=
  match outcome with
  | .ok v d => if d < timeoutMs then .ok v else .error timeoutMessage
  | .fail m d => if d < timeoutMs then .error m else .error timeoutMessage

/-- The message `Query timed out after ${timeout}ms. Consider optimizing
your query or increasing the timeout.` used by `executeQuery` both for the
timer and for the re-thrown timeout error. -/
def timeoutErrorMessage (timeoutMs : Int) : JStr :=
  "Query timed out after ".toList ++ (toString timeoutMs).toList ++
    "ms. Consider optimizing your query or increasing the timeout.".toList

/-! ## database-utils: dialect detection -/

/-- The `DatabaseType` union of database-utils. -/
inductive DatabaseType where
  | postgresql
  | mysql
deriving DecidableEq

/-- Embeds `detectDatabaseType`: lowercases the URL, recognizes the
`mysql://`/`mysql2://` and `postgresql://`/`postgres://` prefixes, and
defaults to postgresql otherwise. -/
def detectDatabaseType (connectionUrl : JStr) : DatabaseType :=
  let url := lowerStr connectionUrl
  if startsWithStr url "mysql://".toList || startsWithStr url "mysql2://".toList then
    DatabaseType.mysql
  else if startsWithStr url "postgresql://".toList ||
      startsWithStr url "postgres://".toList then
    DatabaseType.postgresql
  else
    DatabaseType.postgresql

/-! ## database-manager: executeQuery -/

/-- A JavaScript bound-parameter value: either `undefined` or a defined
value (whose content does not matter to the validation). -/
inductive JsParam where
  | undef
  | value (v : JStr)
deriving DecidableEq

/-- Embeds the test `param === undefined`. -/
def JsParam.isUndefined : JsParam → Bool
  | .undef => true
  | .value _ => false

/-- The normalized errors `executeQuery` can throw (each models the `Error`
with the corresponding message shape). -/
inductive QueryError where
  | invalidParameters
  | queryTimeout (timeoutMs : Int)
  | queryFailed (message : JStr)
deriving DecidableEq

/-- The observable outcome of one `executeQuery` call: the returned value or
thrown error, plus whether the native driver call was actually issued. -/
structure ExecResult (α : Type) where
  result : Except QueryError α
  nativeAttempted : Bool

/-- Embeds `const timeout = timeoutMs || determineQueryTimeout(query)`:
`timeoutMs` is used when supplied and truthy; a missing argument — and a
supplied `0`, which is falsy in JavaScript — falls back to the classifier
with the default configuration. -/
def effectiveTimeout (timeoutMs : Option Int) (query : JStr) : Int :=
  match timeoutMs with
  | some t => if t = 0 then determineQueryTimeout query DEFAULT_TIMEOUT_CONFIG else t
  | none => determineQueryTimeout query DEFAULT_TIMEOUT_CONFIG

/-- Embeds the body of `executeQuery` for a cached pool of the given
dialect: determine the effective timeout, validate mysql parameters (throw
before any native call when some parameter is `undefined`), race the native
call against the timeout timer, and on failure re-throw a normalized error —
a timeout error when the caught message contains `timeout` or `timed out`,
otherwise `Query failed: ${message}` wrapping the original message. -/
def executeQuery {α : Type} (dialect : DatabaseType) (query : JStr)
    (params : List JsParam) (timeoutMs : Option Int)
    (native : NativeOutcome α) : ExecResult α :=
  let timeout := effectiveTimeout timeoutMs query
  if dialect = DatabaseType.mysql ∧ params.any JsParam.isUndefined = true then
    ⟨.error .invalidParameters, false⟩
  else
    match withTimeout native timeout (timeoutErrorMessage timeout) with
    | .ok v => ⟨.ok v, true⟩
    | .error msg =>
      if includesStr msg "timeout".toList || includesStr msg "timed out".toList then
        ⟨.error (.queryTimeout timeout), true⟩
      else
        ⟨.error (.queryFailed msg), true⟩

/-! ## database-manager: the pool registry -/

/-- A stored connection descriptor (the row `getDatabaseConnection`
resolves a connection id to). -/
structure ConnectionDescriptor where
  id : JStr
  connectionUrl : JStr
  isActive : Bool

/-- The `DatabasePool` record of database-manager: one entry of the
registry map. The opaque native pool handle is modelled by a `Nat`
allocated freshly at each pool construction. -/
structure PoolEntry where
  connectionId : JStr
  handle : Nat
  dbType : DatabaseType
  lastUsed : Int
deriving DecidableEq

/-- The registry map, modelled as an insertion-ordered association list
(the JS `Map<string, DatabasePool>`), plus the supply of fresh handles. -/
abbrev RegMap := List (JStr × PoolEntry)

/-- Embeds `Map.prototype.get`. -/
def mapGet : RegMap → JStr → Option PoolEntry
  | [], _ => none
  | p :: rest, k => if p.1 = k then some p.2 else mapGet rest k

/-- Embeds `Map.prototype.set`: replaces the entry with the same key in place,
appends at the end otherwise. -/
def mapSet : RegMap → JStr → PoolEntry → RegMap
  | [], k, v => [(k, v)]
  | p :: rest, k, v => if p.1 = k then (k, v) :: rest else p :: mapSet rest k v

/-- Embeds `Map.prototype.delete`. -/
def mapDelete : RegMap → JStr → RegMap
  | [], _ => []
  | p :: rest, k => if p.1 = k then rest else p :: mapDelete rest k

/-- The mutable state of `DatabaseManager`: the pools map and the supply of
fresh native-pool handles. -/
structure RegistryState where
  pools : RegMap
  nextHandle : Nat
deriving DecidableEq

/-- The error thrown by `getPool` when the descriptor store has no row for
the connection id (`Database connection not found: ...`). -/
inductive RegistryError where
  | connectionNotFound (connectionId : JStr)
deriving DecidableEq

/-- Embeds `getPool(connectionId)`: if an entry exists, refresh its
`lastUsed` to `now` and return its handle; otherwise resolve the descriptor
(failing with `connectionNotFound` and leaving the state unchanged when it
is absent), detect the dialect from its URL, construct a fresh native pool,
store the new entry and return its handle. -/
def getPool (store : JStr → Option ConnectionDescriptor) (now : Int)
    (st : RegistryState) (connectionId : JStr) :
    Except RegistryError Nat × RegistryState :=
  match mapGet st.pools connectionId with
  | some entry =>
    (.ok entry.handle,
      ⟨mapSet st.pools connectionId
        ⟨entry.connectionId, entry.handle, entry.dbType, now⟩, st.nextHandle⟩)
  | none =>
    match store connectionId with
    | none => (.error (.connectionNotFound connectionId), st)
    | some descriptor =>
      let dbType := detectDatabaseType descriptor.connectionUrl
      (.ok st.nextHandle,
        ⟨mapSet st.pools connectionId ⟨connectionId, st.nextHandle, dbType, now⟩,
          st.nextHandle + 1⟩)

/-- The constant `maxIdleTime`: 30 minutes in milliseconds. -/
def maxIdleTime : Int := 30 * 60 * 1000

/-- The idle test of `cleanupIdleConnections`: `idleTime > this.maxIdleTime`
with `idleTime = now - lastUsed`. -/
def isExpired (now : Int) (e : PoolEntry) : Bool :=
  decide (now - e.lastUsed > maxIdleTime)

/-- One iteration of the `cleanupIdleConnections` for-loop, acting on the
live map and the log of failed closes. For an expired entry the native pool
close is attempted (`closeOk` says whether it succeeds); a failure is only
logged — the entry is deleted from the map either way and the scan goes on. -/
def cleanupStep (closeOk : Nat → Bool) (now : Int)
    (acc : RegMap × List JStr) (p : JStr × PoolEntry) : RegMap × List JStr :=
  if isExpired now p.2 then
    if closeOk p.2.handle then (mapDelete acc.1 p.1, acc.2)
    else (mapDelete acc.1 p.1, acc.2 ++ [p.1])
  else acc

/-- Embeds `cleanupIdleConnections`: iterate over a snapshot of the entries
(`Array.from(this.pools.entries())`), closing and deleting every expired
entry; close failures are caught and logged, never propagated. Returns the
new state and the list of connection ids whose close failed. -/
def cleanupIdleConnections (closeOk : Nat → Bool) (now : Int)
    (st : RegistryState) : RegistryState × List JStr :=
  let r := st.pools.foldl (cleanupStep closeOk now) (st.pools, [])
  (⟨r.1, st.nextHandle⟩, r.2)

/-! ## database-manager: testConnection -/

/-- Outcomes of the native operations performed by the mysql branch of
`testConnection`: each field says whether the corresponding awaited call
succeeds (a `false` models a rejection, caught by the `catch` block). -/
structure MysqlProbeOracle where
  createConnectionOk : Bool
  executeOk : Bool
  endOk : Bool

/-- Observable trace of the mysql branch: the returned boolean and whether
`connection.end()` was ever invoked. -/
structure MysqlProbeTrace where
  ok : Bool
  endCalled : Bool
deriving DecidableEq

/-- Embeds the mysql branch of `testConnection`: create a single
connection, run `SELECT 1`, close it — any rejection jumps to the `catch`
and yields `false`, skipping the remaining steps. -/
def testConnectionMysql (o : MysqlProbeOracle) : MysqlProbeTrace :=
  if !o.createConnectionOk then ⟨false, false⟩
  else if !o.executeOk then ⟨false, false⟩
  else if !o.endOk then ⟨false, true⟩
  else ⟨true, true⟩

/-- Outcomes of the native operations performed by the postgresql branch of
`testConnection` (the `Pool` constructor itself is lazy and never throws). -/
structure PgProbeOracle where
  connectOk : Bool
  queryOk : Bool
  releaseOk : Bool
  endOk : Bool

/-- Observable trace of the postgresql branch. -/
structure PgProbeTrace where
  ok : Bool
  releaseCalled : Bool
  endCalled : Bool
deriving DecidableEq

/-- Embeds the postgresql branch of `testConnection`: build a one-connection
pool, `connect`, `SELECT 1`, `release`, `end` — any rejection jumps to the
`catch` and yields `false`, skipping the remaining steps. -/
def testConnectionPg (o : PgProbeOracle) : PgProbeTrace :=
  if !o.connectOk then ⟨false, false, false⟩
  else if !o.queryOk then ⟨false, false, false⟩
  else if !o.releaseOk then ⟨false, true, false⟩
  else if !o.endOk then ⟨false, true, true⟩
  else ⟨true, true, true⟩

/-- Oracles for both dialect branches of `testConnection`. -/
structure ProbeOracle where
  forMysql : MysqlProbeOracle
  forPg : PgProbeOracle

/-- Observable trace of one `testConnection` call: the returned boolean and
whether the throwaway connection/pool was closed (`connection.end()` on the
mysql branch, `testPool.end()` on the postgresql branch). -/
structure ProbeTrace where
  ok : Bool
  closeCalled : Bool
deriving DecidableEq

/-- Embeds `testConnection(connectionUrl)`: detect the dialect from the URL
and run the corresponding probe; every failure is absorbed into `false`. -/
def testConnection (connectionUrl : JStr) (o : ProbeOracle) : ProbeTrace :=
  match detectDatabaseType connectionUrl with
  | .mysql =>
    let t := testConnectionMysql o.forMysql
    ⟨t.ok, t.endCalled⟩
  | .postgresql =>
    let t := testConnectionPg o.forPg
    ⟨t.ok, t.endCalled⟩

/-! ## Helper lemmas -/

theorem infix_dropWhile_of_head {c0 : Char} {pat0 : JStr}
    (hc : c0.isWhitespace = false) (s : JStr)
    (h : (c0 :: pat0) <:+: s) :
    (c0 :: pat0) <:+: s.dropWhile Char.isWhitespace := by
  induction s with
  | nil => simp [List.infix_nil] at h
  | cons c s ih =>
    rw [List.dropWhile_cons]
    cases hw : c.isWhitespace with
    | true =>
      simp only [if_pos rfl]
      rcases List.infix_cons_iff.mp h with hpre | hinf
      · have hceq : c0 = c := (List.cons_prefix_cons.mp hpre).1
        rw [← hceq] at hw
        rw [hc] at hw
        exact absurd hw (by simp)
      · exact ih hinf
    | false =>
      simp only [Bool.false_eq_true, if_neg (by simp : ¬False)]
      exact h

theorem infix_trimStr {pat : JStr} (s : JStr) (h : pat <:+: s)
    (hhead : ∃ c0 pat0, pat = c0 :: pat0 ∧ c0.isWhitespace = false)
    (hlast : ∃ c1 pat1, pat.reverse = c1 :: pat1 ∧ c1.isWhitespace = false) :
    pat <:+: trimStr s := by
  obtain ⟨c0, pat0, hp0, hc0⟩ := hhead
  obtain ⟨c1, pat1, hp1, hc1⟩ := hlast
  have h1 : pat <:+: s.dropWhile Char.isWhitespace := by
    rw [hp0] at h ⊢
    exact infix_dropWhile_of_head hc0 s h
  have h2 : pat.reverse <:+: (s.dropWhile Char.isWhitespace).reverse :=
    List.IsInfix.reverse h1
  have h3 : pat.reverse <:+:
      ((s.dropWhile Char.isWhitespace).reverse.dropWhile Char.isWhitespace) := by
    rw [hp1] at h2 ⊢
    exact infix_dropWhile_of_head hc1 _ h2
  have h4 := List.IsInfix.reverse h3
  rw [List.reverse_reverse] at h4
  exact h4

theorem infix_lowerStr {pat : JStr} (s : JStr) (h : pat <:+: s)
    (hfix : lowerStr pat = pat) : pat <:+: lowerStr s := by
  have hm := List.IsInfix.map Char.toLower h
  unfold lowerStr at hfix ⊢
  rwa [hfix] at hm

theorem createTable_isDDL (s : JStr) (h : "create table".toList <:+: s) :
    isDDLQuery (normalizeQuery s) = true := by
  have h1 : "create table".toList <:+: lowerStr s :=
    infix_lowerStr s h (by decide)
  have h2 : "create table".toList <:+: trimStr (lowerStr s) :=
    infix_trimStr (lowerStr s) h1
      ⟨'c', "reate table".toList, by decide, by decide⟩
      ⟨'e', "lbat etaerc".toList, by decide, by decide⟩
  unfold isDDLQuery
  refine List.any_eq_true.mpr ⟨"create table".toList, ?_, ?_⟩
  · unfold ddlKeywords
    simp
  · unfold includesStr normalizeQuery
    exact decide_eq_true h2

/-- C2: the timeout classifier assigns one of five tiers with the
highest-priority match winning in the fixed order DDL (30 min),
long-running analytics (1 h), complex (15 min), simple select (5 min),
default (2 min); every string containing `create table` gets the DDL tier
regardless of other clauses; a SELECT with `group by` and `sum(` is
long-running; the same SELECT without `group by` and with one `join` is
complex; a bare `select * from t` is simple. -/
theorem determineQueryTimeout_tiers :
    (∀ s : JStr, "create table".toList <:+: s →
      determineQueryTimeout s DEFAULT_TIMEOUT_CONFIG = 1800000)
    ∧ (∀ (s : JStr) (cfg : TimeoutConfig),
        (isDDLQuery (normalizeQuery s) = true →
          determineQueryTimeout s cfg = cfg.ddl)
        ∧ (isDDLQuery (normalizeQuery s) = false →
            isAnalyticsQuery (normalizeQuery s) = true →
            determineQueryTimeout s cfg = cfg.longRunning)
        ∧ (isDDLQuery (normalizeQuery s) = false →
            isAnalyticsQuery (normalizeQuery s) = false →
            isComplexQuery (normalizeQuery s) = true →
            determineQueryTimeout s cfg = cfg.complex)
        ∧ (isDDLQuery (normalizeQuery s) = false →
            isAnalyticsQuery (normalizeQuery s) = false →
            isComplexQuery (normalizeQuery s) = false →
            isSimpleSelectQuery (normalizeQuery s) = true →
            determineQueryTimeout s cfg = cfg.simple)
        ∧ (isDDLQuery (normalizeQuery s) = false →
            isAnalyticsQuery (normalizeQuery s) = false →
            isComplexQuery (normalizeQuery s) = false →
            isSimpleSelectQuery (normalizeQuery s) = false →
            determineQueryTimeout s cfg = cfg.defaultTier))
    ∧ determineQueryTimeout
        ("SELECT sum(amount) FROM t JOIN u ON t.id = u.id GROUP BY t.id".toList)
        DEFAULT_TIMEOUT_CONFIG = 3600000
    ∧ determineQueryTimeout
        ("SELECT sum(amount) FROM t JOIN u ON t.id = u.id".toList)
        DEFAULT_TIMEOUT_CONFIG = 900000
    ∧ determineQueryTimeout ("select * from t".toList)
        DEFAULT_TIMEOUT_CONFIG = 300000 := by
  refine ⟨?_, ?_, by decide, by decide, by decide⟩
  · intro s h
    have hd := createTable_isDDL s h
    unfold determineQueryTimeout
    simp [hd, DEFAULT_TIMEOUT_CONFIG]
  · intro s cfg
    refine ⟨?_, ?_, ?_, ?_, ?_⟩ <;>
      (intros; unfold determineQueryTimeout; simp_all)

/-- Witness for C2: a string containing `create table` amid other clauses is
still classified into the DDL tier. -/
theorem determineQueryTimeout_tiers_witness :
    determineQueryTimeout ("insert into x; create table y (z int) order by w".toList)
      DEFAULT_TIMEOUT_CONFIG = 1800000 :=
  determineQueryTimeout_tiers.1 _ (by decide)

/-- C10: `determineQueryTimeout` is a total, deterministic function of the
SQL text; under the default configuration it always returns one of the five
constants 120000, 300000, 900000, 1800000, 3600000 ms. -/
theorem determineQueryTimeout_total_five (s : JStr) :
    determineQueryTimeout s DEFAULT_TIMEOUT_CONFIG = 120000 ∨
    determineQueryTimeout s DEFAULT_TIMEOUT_CONFIG = 300000 ∨
    determineQueryTimeout s DEFAULT_TIMEOUT_CONFIG = 900000 ∨
    determineQueryTimeout s DEFAULT_TIMEOUT_CONFIG = 1800000 ∨
    determineQueryTimeout s DEFAULT_TIMEOUT_CONFIG = 3600000 := by
  simp only [determineQueryTimeout]
  split
  · simp [DEFAULT_TIMEOUT_CONFIG]
  · split
    · simp [DEFAULT_TIMEOUT_CONFIG]
    · split
      · simp [DEFAULT_TIMEOUT_CONFIG]
      · split <;> simp [DEFAULT_TIMEOUT_CONFIG]

/-- C3 counterexample: the claim says the effective timeout is
`explicitTimeoutMs` for every supplied numeric value, but a supplied `0` is
falsy in JavaScript, so `timeoutMs || determineQueryTimeout(query)` falls
back to the classifier: for `select * from t` with an explicit timeout of 0
the race uses 300000 ms, not 0. -/
theorem effectiveTimeout_zero_counterexample :
    effectiveTimeout (some 0) ("select * from t".toList) = 300000 ∧
      (300000 : Int) ≠ 0 := by
  refine ⟨by decide, by decide⟩

/-- C3 amended: the effective timeout used for the race is
`explicitTimeoutMs` whenever that argument is supplied and nonzero
(truthy); a supplied `0` — like an omitted argument — falls back to the
Classifier's tier for the SQL text under the default configuration. -/
theorem effectiveTimeout_spec (q : JStr) :
    (∀ t : Int, t ≠ 0 → effectiveTimeout (some t) q = t)
    ∧ effectiveTimeout (some 0) q = determineQueryTimeout q DEFAULT_TIMEOUT_CONFIG
    ∧ effectiveTimeout none q = determineQueryTimeout q DEFAULT_TIMEOUT_CONFIG := by
  refine ⟨?_, by simp [effectiveTimeout], rfl⟩
  intro t ht
  simp [effectiveTimeout, ht]

/-- Witness for the amended C3: a supplied nonzero timeout is used as-is. -/
theorem effectiveTimeout_spec_witness :
    effectiveTimeout (some 42) ("select * from t".toList) = 42 :=
  (effectiveTimeout_spec ("select * from t".toList)).1 42 (by decide)

theorem timedOut_in_timeoutErrorMessage (t : Int) :
    includesStr (timeoutErrorMessage t) "timed out".toList = true := by
  unfold includesStr timeoutErrorMessage
  refine decide_eq_true ?_
  have h1 : "timed out".toList <:+: "Query timed out after ".toList := by decide
  rw [List.append_assoc]
  exact h1.trans (List.prefix_append _ _).isInfix

/-- C1: when the native execution fails, `executeQuery` re-throws a
normalized error: a message containing `timeout` or `timed out` (in
particular whenever the effective timeout elapsed before the native call
settled) becomes a timeout error carrying the effective timeout value,
and any other message becomes a `Query failed:` error preserving the
original driver message. -/
theorem executeQuery_failure_normalized {α : Type} (dialect : DatabaseType)
    (query : JStr) (params : List JsParam) (timeoutMs : Option Int)
    (native : NativeOutcome α)
    (hok : ¬ (dialect = DatabaseType.mysql ∧ params.any JsParam.isUndefined = true)) :
    (∀ msg : JStr,
      withTimeout native (effectiveTimeout timeoutMs query)
          (timeoutErrorMessage (effectiveTimeout timeoutMs query)) = .error msg →
        ((includesStr msg "timeout".toList || includesStr msg "timed out".toList) = true →
          (executeQuery dialect query params timeoutMs native).result
            = .error (.queryTimeout (effectiveTimeout timeoutMs query)))
        ∧ ((includesStr msg "timeout".toList || includesStr msg "timed out".toList) = false →
          (executeQuery dialect query params timeoutMs native).result
            = .error (.queryFailed msg)))
    ∧ (effectiveTimeout timeoutMs query ≤ native.duration →
        (executeQuery dialect query params timeoutMs native).result
          = .error (.queryTimeout (effectiveTimeout timeoutMs query))) := by
  constructor
  · intro msg hfail
    constructor
    · intro hflag
      simp only [executeQuery]
      rw [if_neg hok, hfail]
      dsimp only []
      rw [if_pos hflag]
    · intro hflag
      have hneg : ¬ ((includesStr msg "timeout".toList ||
          includesStr msg "timed out".toList) = true) := by
        rw [hflag]
        simp
      simp only [executeQuery]
      rw [if_neg hok, hfail]
      dsimp only []
      rw [if_neg hneg]
  · intro hdur
    have hfail : withTimeout native (effectiveTimeout timeoutMs query)
        (timeoutErrorMessage (effectiveTimeout timeoutMs query))
        = .error (timeoutErrorMessage (effectiveTimeout timeoutMs query)) := by
      cases native with
      | ok v d =>
        simp only [NativeOutcome.duration] at hdur
        simp [withTimeout, not_lt.mpr hdur]
      | fail m d =>
        simp only [NativeOutcome.duration] at hdur
        simp [withTimeout, not_lt.mpr hdur]
    have hcond : (includesStr (timeoutErrorMessage (effectiveTimeout timeoutMs query))
        "timeout".toList ||
        includesStr (timeoutErrorMessage (effectiveTimeout timeoutMs query))
        "timed out".toList) = true := by
      rw [timedOut_in_timeoutErrorMessage (effectiveTimeout timeoutMs query)]
      simp
    simp only [executeQuery]
    rw [if_neg hok, hfail]
    dsimp only []
    rw [if_pos hcond]

/-- Witness for C1: a postgresql query failing with a non-timeout driver
message is re-thrown as `queryFailed` with the original message preserved. -/
theorem executeQuery_failure_normalized_witness :
    (executeQuery DatabaseType.postgresql ("select * from t".toList) []
        (some 50) (NativeOutcome.fail "syntax error near select".toList 10
          : NativeOutcome Unit)).result
      = .error (.queryFailed "syntax error near select".toList) :=
  ((executeQuery_failure_normalized DatabaseType.postgresql
      ("select * from t".toList) [] (some 50)
      (NativeOutcome.fail "syntax error near select".toList 10)
      (by decide)).1 "syntax error near select".toList rfl).2 (by decide)

/-- C4: an `executeQuery` call against a mysql-dialect pool whose parameter
list contains an `undefined` value fails with the invalid-parameters error
and no native driver call is attempted. -/
theorem executeQuery_mysql_undefined_params {α : Type} (query : JStr)
    (params : List JsParam) (timeoutMs : Option Int) (native : NativeOutcome α)
    (h : params.any JsParam.isUndefined = true) :
    executeQuery DatabaseType.mysql query params timeoutMs native
      = ⟨.error .invalidParameters, false⟩ := by
  simp [executeQuery, h]

/-- Witness for C4: a concrete mysql call with an `undefined` parameter is
rejected before the native call. -/
theorem executeQuery_mysql_undefined_params_witness :
    executeQuery DatabaseType.mysql ("select * from t where id = ?".toList)
        [JsParam.undef] none (NativeOutcome.ok () 5)
      = ⟨.error .invalidParameters, false⟩ :=
  executeQuery_mysql_undefined_params ("select * from t where id = ?".toList)
    [JsParam.undef] none (NativeOutcome.ok () 5) (by decide)

theorem mapGet_mapSet_self (m : RegMap) (k : JStr) (v : PoolEntry) :
    mapGet (mapSet m k v) k = some v := by
  induction m with
  | nil =>
    show (if k = k then some v else mapGet [] k) = some v
    rw [if_pos rfl]
  | cons p rest ih =>
    obtain ⟨k0, v0⟩ := p
    by_cases hp : k0 = k
    · subst hp
      show mapGet (if k0 = k0 then (k0, v) :: rest else (k0, v0) :: mapSet rest k0 v) k0
        = some v
      rw [if_pos rfl]
      show (if k0 = k0 then some v else mapGet rest k0) = some v
      rw [if_pos rfl]
    · show mapGet (if k0 = k then (k, v) :: rest else (k0, v0) :: mapSet rest k v) k
        = some v
      rw [if_neg hp]
      show (if k0 = k then some v0 else mapGet (mapSet rest k v) k) = some v
      rw [if_neg hp]
      exact ih

theorem mem_keys_mapSet {m : RegMap} {k : JStr} {v : PoolEntry} {k2 : JStr}
    (h : k2 ∈ (mapSet m k v).map Prod.fst) :
    k2 ∈ m.map Prod.fst ∨ k2 = k := by
  induction m with
  | nil =>
    right
    have h2 : k2 ∈ [k] := h
    exact List.mem_singleton.mp h2
  | cons p rest ih =>
    obtain ⟨k0, v0⟩ := p
    by_cases hp : k0 = k
    · rw [show mapSet ((k0, v0) :: rest) k v = (k, v) :: rest from by
        show (if k0 = k then (k, v) :: rest else _) = _
        rw [if_pos hp]] at h
      rw [List.map_cons, List.mem_cons] at h
      rcases h with h | h
      · exact Or.inr h
      · exact Or.inl (List.mem_cons_of_mem k0 h)
    · rw [show mapSet ((k0, v0) :: rest) k v = (k0, v0) :: mapSet rest k v from by
        show (if k0 = k then _ else (k0, v0) :: mapSet rest k v) = _
        rw [if_neg hp]] at h
      rw [List.map_cons, List.mem_cons] at h
      rcases h with h | h
      · exact Or.inl (by rw [h]; exact List.mem_cons_self k0 _)
      · rcases ih h with h2 | h2
        · exact Or.inl (List.mem_cons_of_mem k0 h2)
        · exact Or.inr h2

theorem keys_nodup_mapSet {m : RegMap} {k : JStr} {v : PoolEntry}
    (h : (m.map Prod.fst).Nodup) :
    ((mapSet m k v).map Prod.fst).Nodup := by
  induction m with
  | nil => exact List.nodup_singleton k
  | cons p rest ih =>
    obtain ⟨k0, v0⟩ := p
    rw [List.map_cons, List.nodup_cons] at h
    obtain ⟨hnotin, hnd⟩ := h
    by_cases hp : k0 = k
    · rw [show mapSet ((k0, v0) :: rest) k v = (k, v) :: rest from by
        show (if k0 = k then (k, v) :: rest else _) = _
        rw [if_pos hp]]
      rw [List.map_cons, List.nodup_cons]
      exact ⟨by rw [← hp]; exact hnotin, hnd⟩
    · rw [show mapSet ((k0, v0) :: rest) k v = (k0, v0) :: mapSet rest k v from by
        show (if k0 = k then _ else (k0, v0) :: mapSet rest k v) = _
        rw [if_neg hp]]
      rw [List.map_cons, List.nodup_cons]
      refine ⟨?_, ih hnd⟩
      intro hmem
      rcases mem_keys_mapSet hmem with h1 | h1
      · exact hnotin h1
      · exact hp h1

/-- C5: the registry map holds at most one entry per connection id
(unique-key invariant preserved by `getPool`); two sequential `getPool`
calls for the same id return the handle of the same underlying entry — the
second call refreshes `lastUsed` and allocates no new pool (`nextHandle`
unchanged) — and `getPool` for an id without a descriptor fails with
`connectionNotFound`, leaving the registry unchanged. -/
theorem getPool_registry_invariants :
    (∀ (store : JStr → Option ConnectionDescriptor) (now : Int)
        (st : RegistryState) (id : JStr),
      (st.pools.map Prod.fst).Nodup →
        (((getPool store now st id).2).pools.map Prod.fst).Nodup)
    ∧ (∀ (store : JStr → Option ConnectionDescriptor) (t1 t2 : Int)
        (st : RegistryState) (id : JStr) (h : Nat) (st1 : RegistryState),
      getPool store t1 st id = (.ok h, st1) →
        ∃ e1, mapGet st1.pools id = some e1 ∧ e1.handle = h ∧ e1.lastUsed = t1 ∧
          getPool store t2 st1 id
            = (.ok h, ⟨mapSet st1.pools id ⟨e1.connectionId, h, e1.dbType, t2⟩,
                st1.nextHandle⟩))
    ∧ (∀ (store : JStr → Option ConnectionDescriptor) (now : Int)
        (st : RegistryState) (id : JStr),
      mapGet st.pools id = none → store id = none →
        getPool store now st id = (.error (.connectionNotFound id), st)) := by
  refine ⟨?_, ?_, ?_⟩
  · intro store now st id hnd
    unfold getPool
    cases hg : mapGet st.pools id with
    | some entry =>
      exact keys_nodup_mapSet hnd
    | none =>
      cases hs : store id with
      | none => exact hnd
      | some d => exact keys_nodup_mapSet hnd
  · intro store t1 t2 st id h st1 hcall
    have key : ∃ e1, mapGet st1.pools id = some e1 ∧ e1.handle = h ∧
        e1.lastUsed = t1 := by
      unfold getPool at hcall
      cases hg : mapGet st.pools id with
      | some entry =>
        rw [hg] at hcall
        dsimp only [] at hcall
        injection hcall with hok hst
        injection hok with hok
        refine ⟨⟨entry.connectionId, entry.handle, entry.dbType, t1⟩, ?_, hok, rfl⟩
        rw [← hst]
        exact mapGet_mapSet_self st.pools id _
      | none =>
        rw [hg] at hcall
        cases hs : store id with
        | none =>
          rw [hs] at hcall
          dsimp only [] at hcall
          have hbad := congrArg Prod.fst hcall
          simp at hbad
        | some d =>
          rw [hs] at hcall
          dsimp only [] at hcall
          injection hcall with hok hst
          injection hok with hok
          refine ⟨⟨id, st.nextHandle, detectDatabaseType d.connectionUrl, t1⟩,
            ?_, hok, rfl⟩
          rw [← hst]
          exact mapGet_mapSet_self st.pools id _
    obtain ⟨e1, hget, hh, hl⟩ := key
    refine ⟨e1, hget, hh, hl, ?_⟩
    unfold getPool
    rw [hget]
    dsimp only []
    rw [hh]
  · intro store now st id hget hstore
    unfold getPool
    rw [hget, hstore]

/-- The descriptor store used by the C5 witness: a single connection id
`c1` mapping to a mysql URL. -/
def witnessStore : JStr → Option ConnectionDescriptor :=
  fun i =>
    if i = "c1".toList then
      some ⟨"c1".toList, "mysql://user:pw@host/db".toList, true⟩
    else none

/-- The registry state after a first `getPool` for `c1` at time 5 from the
empty registry. -/
def witnessSt1 : RegistryState :=
  ⟨[("c1".toList, ⟨"c1".toList, 0, DatabaseType.mysql, 5⟩)], 1⟩

/-- Witness for C5: exercises all three conjuncts on concrete states. -/
theorem getPool_registry_invariants_witness :
    (((getPool witnessStore 5 ⟨[], 0⟩ "c1".toList).2).pools.map Prod.fst).Nodup
    ∧ (∃ e1, mapGet witnessSt1.pools "c1".toList = some e1 ∧ e1.handle = 0 ∧
        e1.lastUsed = 5 ∧
        getPool witnessStore 9 witnessSt1 "c1".toList
          = (.ok 0, ⟨mapSet witnessSt1.pools "c1".toList
              ⟨e1.connectionId, 0, e1.dbType, 9⟩, witnessSt1.nextHandle⟩))
    ∧ getPool witnessStore 9 ⟨[], 0⟩ "c2".toList
        = (.error (.connectionNotFound "c2".toList), ⟨[], 0⟩) :=
  ⟨getPool_registry_invariants.1 witnessStore 5 ⟨[], 0⟩ "c1".toList List.nodup_nil,
   getPool_registry_invariants.2.1 witnessStore 5 9 ⟨[], 0⟩ "c1".toList 0
     witnessSt1 rfl,
   getPool_registry_invariants.2.2 witnessStore 9 ⟨[], 0⟩ "c2".toList rfl rfl⟩

theorem mapDelete_eq_filter {m : RegMap} (k : JStr)
    (hnd : (m.map Prod.fst).Nodup) :
    mapDelete m k = m.filter fun p => decide (p.1 ≠ k) := by
  induction m with
  | nil => rfl
  | cons p rest ih =>
    obtain ⟨k0, v0⟩ := p
    rw [List.map_cons, List.nodup_cons] at hnd
    obtain ⟨hnotin, hnd2⟩ := hnd
    by_cases hp : k0 = k
    · rw [show mapDelete ((k0, v0) :: rest) k = rest from by
        show (if k0 = k then rest else _) = _
        rw [if_pos hp]]
      rw [List.filter_cons]
      rw [show (decide ((k0, v0).1 ≠ k)) = false from by
        refine decide_eq_false ?_
        intro hne
        exact hne hp]
      rw [if_neg (by simp : ¬ (false = true))]
      refine (List.filter_eq_self.mpr ?_).symm
      intro a ha
      refine decide_eq_true ?_
      intro heq
      have hmem : a.1 ∈ rest.map Prod.fst := List.mem_map_of_mem Prod.fst ha
      rw [heq, ← hp] at hmem
      exact hnotin hmem
    · rw [show mapDelete ((k0, v0) :: rest) k = (k0, v0) :: mapDelete rest k from by
        show (if k0 = k then _ else (k0, v0) :: mapDelete rest k) = _
        rw [if_neg hp]]
      rw [List.filter_cons]
      rw [show (decide ((k0, v0).1 ≠ k)) = true from decide_eq_true hp]
      rw [if_pos rfl]
      rw [ih hnd2]

theorem cleanup_fold_fst (closeOk : Nat → Bool) (now : Int) :
    ∀ (l : List (JStr × PoolEntry)) (m : RegMap) (errs : List JStr),
      (l.foldl (cleanupStep closeOk now) (m, errs)).1
        = l.foldl (fun acc p => if isExpired now p.2 then mapDelete acc p.1 else acc) m := by
  intro l
  induction l with
  | nil =>
    intro m errs
    rfl
  | cons p l ih =>
    intro m errs
    rw [List.foldl_cons, List.foldl_cons]
    by_cases he : isExpired now p.2 = true
    · by_cases hc : closeOk p.2.handle = true
      · rw [show cleanupStep closeOk now (m, errs) p = (mapDelete m p.1, errs) from by
          unfold cleanupStep
          rw [if_pos he, if_pos hc]]
        rw [if_pos he]
        exact ih _ _
      · rw [show cleanupStep closeOk now (m, errs) p
            = (mapDelete m p.1, errs ++ [p.1]) from by
          unfold cleanupStep
          rw [if_pos he, if_neg hc]]
        rw [if_pos he]
        exact ih _ _
    · rw [show cleanupStep closeOk now (m, errs) p = (m, errs) from by
        unfold cleanupStep
        rw [if_neg he]]
      rw [if_neg he]
      exact ih _ _

theorem cleanupFold_filter (now : Int) :
    ∀ (l : List (JStr × PoolEntry)) (m : RegMap), (m.map Prod.fst).Nodup →
      l.foldl (fun acc p => if isExpired now p.2 then mapDelete acc p.1 else acc) m
        = m.filter fun q =>
            decide (¬ ∃ p, p ∈ l ∧ isExpired now p.2 = true ∧ p.1 = q.1) := by
  intro l
  induction l with
  | nil =>
    intro m hnd
    rw [List.foldl_nil]
    refine (List.filter_eq_self.mpr ?_).symm
    intro a ha
    refine decide_eq_true ?_
    rintro ⟨p, hp, -⟩
    exact absurd hp (List.not_mem_nil p)
  | cons p l ih =>
    intro m hnd
    rw [List.foldl_cons]
    by_cases he : isExpired now p.2 = true
    · rw [if_pos he, mapDelete_eq_filter p.1 hnd,
        ih _ (((List.filter_sublist m).map Prod.fst).nodup hnd),
        List.filter_filter]
      refine List.filter_congr ?_
      intro q hq
      rw [show ((decide (¬ ∃ r, r ∈ l ∧ isExpired now r.2 = true ∧ r.1 = q.1)) &&
          (decide (q.1 ≠ p.1)))
          = decide ((¬ ∃ r, r ∈ l ∧ isExpired now r.2 = true ∧ r.1 = q.1) ∧ q.1 ≠ p.1)
          from (Bool.decide_and _ _).symm]
      rw [decide_eq_decide]
      constructor
      · rintro ⟨hno, hne⟩ ⟨r, hr, hre, hrq⟩
        rcases List.mem_cons.mp hr with rfl | hr2
        · exact hne hrq.symm
        · exact hno ⟨r, hr2, hre, hrq⟩
      · intro hno
        constructor
        · rintro ⟨r, hr, hre, hrq⟩
          exact hno ⟨r, List.mem_cons_of_mem p hr, hre, hrq⟩
        · intro heq
          exact hno ⟨p, List.mem_cons_self p l, he, heq.symm⟩
    · rw [if_neg he, ih m hnd]
      refine List.filter_congr ?_
      intro q hq
      rw [decide_eq_decide]
      constructor
      · rintro hno ⟨r, hr, hre, hrq⟩
        rcases List.mem_cons.mp hr with rfl | hr2
        · exact he hre
        · exact hno ⟨r, hr2, hre, hrq⟩
      · rintro hno ⟨r, hr, hre, hrq⟩
        exact hno ⟨r, List.mem_cons_of_mem p hr, hre, hrq⟩

/-- C6: one run of `cleanupIdleConnections` removes exactly the entries
whose idle time `now - lastUsed` strictly exceeds the 30-minute threshold
and leaves every other entry untouched; a native close failure is only
logged (the result is the same for every `closeOk` oracle), so the reap
never throws and never aborts the scan of the remaining entries. -/
theorem cleanupIdleConnections_spec (closeOk : Nat → Bool) (now : Int)
    (st : RegistryState) (hnd : (st.pools.map Prod.fst).Nodup) :
    (cleanupIdleConnections closeOk now st).1
      = ⟨st.pools.filter fun q => decide (now - q.2.lastUsed ≤ maxIdleTime),
          st.nextHandle⟩ := by
  unfold cleanupIdleConnections
  dsimp only []
  congr 1
  rw [cleanup_fold_fst closeOk now st.pools st.pools [],
    cleanupFold_filter now st.pools st.pools hnd]
  refine List.filter_congr ?_
  intro q hq
  rw [decide_eq_decide]
  constructor
  · intro hno
    by_contra hgt
    rw [not_le] at hgt
    exact hno ⟨q, hq, decide_eq_true hgt, rfl⟩
  · rintro hle ⟨r, hr, hre, hrq⟩
    have hrq2 : r = q := List.inj_on_of_nodup_map hnd hr hq hrq
    rw [hrq2] at hre
    have hgt := of_decide_eq_true hre
    exact absurd hle (not_le.mpr hgt)

/-- The two-entry registry used by the C6 witness: entry `a` idle for
2000000 ms (past the threshold), entry `b` idle for 1000000 ms (under it). -/
def reapState : RegistryState :=
  ⟨[("a".toList, ⟨"a".toList, 0, DatabaseType.postgresql, 0⟩),
    ("b".toList, ⟨"b".toList, 1, DatabaseType.mysql, 1000000⟩)], 2⟩

/-- Witness for C6: with the clock at 2000000 ms the expired entry is
removed even though every native close fails, and the fresh entry stays. -/
theorem cleanupIdleConnections_spec_witness :
    (cleanupIdleConnections (fun _ => false) 2000000 reapState).1
      = ⟨[("b".toList, ⟨"b".toList, 1, DatabaseType.mysql, 1000000⟩)], 2⟩ :=
  (cleanupIdleConnections_spec (fun _ => false) 2000000 reapState
    (by decide)).trans (by decide)

/-- C7: `testConnection` always returns a boolean (every failure of any
probe step is absorbed by the catch block): it returns true exactly when
the whole probe sequence of the detected dialect succeeds, and false on
any failure — including an unreachable host (the establish step rejects)
and a malformed URL (dialect defaults to postgresql and its connect
rejects). -/
theorem testConnection_bool_spec (url : JStr) (o : ProbeOracle) :
    ((testConnection url o).ok = true ∨ (testConnection url o).ok = false)
    ∧ (detectDatabaseType url = DatabaseType.mysql →
        ((testConnection url o).ok = true ↔
          o.forMysql.createConnectionOk = true ∧ o.forMysql.executeOk = true ∧
            o.forMysql.endOk = true))
    ∧ (detectDatabaseType url = DatabaseType.postgresql →
        ((testConnection url o).ok = true ↔
          o.forPg.connectOk = true ∧ o.forPg.queryOk = true ∧
            o.forPg.releaseOk = true ∧ o.forPg.endOk = true)) := by
  obtain ⟨⟨a, b, c⟩, ⟨d, e, f, g⟩⟩ := o
  refine ⟨?_, ?_, ?_⟩
  · cases htc : (testConnection url ⟨⟨a, b, c⟩, ⟨d, e, f, g⟩⟩).ok with
    | false => exact Or.inr rfl
    | true => exact Or.inl rfl
  · intro h
    unfold testConnection
    rw [h]
    dsimp only []
    cases a <;> cases b <;> cases c <;> decide
  · intro h
    unfold testConnection
    rw [h]
    dsimp only []
    cases d <;> cases e <;> cases f <;> cases g <;> decide

/-- Witness for C7: an all-successful mysql probe returns true. -/
theorem testConnection_bool_spec_witness :
    (testConnection ("mysql://h/db".toList)
        ⟨⟨true, true, true⟩, ⟨true, true, true, true⟩⟩).ok = true :=
  ((testConnection_bool_spec ("mysql://h/db".toList)
    ⟨⟨true, true, true⟩, ⟨true, true, true, true⟩⟩).2.1 rfl).mpr ⟨rfl, rfl, rfl⟩

/-- C8 counterexample: the claim says the throwaway connection/pool is
released/closed on every failure path, but when the probe `SELECT 1` fails
after the connection was established the `catch` is entered before
`client.release()`/`testPool.end()` (resp. `connection.end()`) run, so
nothing is closed: the connection is leaked. -/
theorem testConnection_close_counterexample :
    (testConnection ("postgres://h/db".toList)
        ⟨⟨true, true, true⟩, ⟨true, false, true, true⟩⟩)
      = ⟨false, false⟩
    ∧ (testConnectionPg ⟨true, false, true, true⟩).releaseCalled = false
    ∧ (testConnectionMysql ⟨true, false, true⟩).endCalled = false := by
  refine ⟨rfl, rfl, rfl⟩

/-- C8 amended: the throwaway connection/pool is closed only on the paths
that reach the close call — mysql calls `connection.end()` iff both
`createConnection` and `execute` succeeded; postgresql calls
`client.release()` iff `connect` and the probe query succeeded, and
`testPool.end()` iff `release` also succeeded. On a failure after the
connection is established, nothing is closed. -/
theorem testConnection_close_amended (mo : MysqlProbeOracle) (po : PgProbeOracle) :
    (testConnectionMysql mo).endCalled = (mo.createConnectionOk && mo.executeOk)
    ∧ (testConnectionPg po).releaseCalled = (po.connectOk && po.queryOk)
    ∧ (testConnectionPg po).endCalled
        = (po.connectOk && po.queryOk && po.releaseOk) := by
  obtain ⟨a, b, c⟩ := mo
  obtain ⟨d, e, f, g⟩ := po
  cases a <;> cases b <;> cases c <;> cases d <;> cases e <;> cases f <;>
    cases g <;> decide

theorem prefix_head_eq {p1 p2 u : JStr} (h1 : p1 <+: u) (h2 : p2 <+: u)
    (hn1 : p1 ≠ []) (hn2 : p2 ≠ []) : p1.head? = p2.head? := by
  cases p1 with
  | nil => exact absurd rfl hn1
  | cons a t1 =>
    cases p2 with
    | nil => exact absurd rfl hn2
    | cons b t2 =>
      cases u with
      | nil =>
        obtain ⟨t, ht⟩ := h1
        simp at ht
      | cons c u2 =>
        have e1 := (List.cons_prefix_cons.mp h1).1
        have e2 := (List.cons_prefix_cons.mp h2).1
        rw [List.head?_cons, List.head?_cons, e1, e2]

theorem detect_eq_mysql_of (url : JStr)
    (h : (startsWithStr (lowerStr url) "mysql://".toList ||
      startsWithStr (lowerStr url) "mysql2://".toList) = true) :
    detectDatabaseType url = DatabaseType.mysql := by
  simp only [detectDatabaseType]
  rw [if_pos h]

theorem detect_eq_postgresql_of_not_mysql (url : JStr)
    (hm1 : startsWithStr (lowerStr url) "mysql://".toList = false)
    (hm2 : startsWithStr (lowerStr url) "mysql2://".toList = false) :
    detectDatabaseType url = DatabaseType.postgresql := by
  simp only [detectDatabaseType]
  rw [if_neg (show ¬ ((startsWithStr (lowerStr url) "mysql://".toList ||
      startsWithStr (lowerStr url) "mysql2://".toList) = true) from by
    rw [hm1, hm2]
    simp)]
  exact ite_self _

/-- C9: `detectDatabaseType` returns mysql exactly when the lowercased URL
starts with `mysql://` or `mysql2://`; it returns postgresql when the
lowercased URL starts with `postgresql://` or `postgres://`, and also
(as an explicit default, not an error) for any other or unparseable
string. -/
theorem detectDatabaseType_spec (url : JStr) :
    (detectDatabaseType url = DatabaseType.mysql ↔
      (startsWithStr (lowerStr url) "mysql://".toList = true ∨
        startsWithStr (lowerStr url) "mysql2://".toList = true))
    ∧ ((startsWithStr (lowerStr url) "postgresql://".toList = true ∨
        startsWithStr (lowerStr url) "postgres://".toList = true) →
        detectDatabaseType url = DatabaseType.postgresql)
    ∧ ((startsWithStr (lowerStr url) "mysql://".toList = false ∧
        startsWithStr (lowerStr url) "mysql2://".toList = false) →
        detectDatabaseType url = DatabaseType.postgresql) := by
  refine ⟨?_, ?_, ?_⟩
  · by_cases h1 : startsWithStr (lowerStr url) "mysql://".toList = true
    · have hdet := detect_eq_mysql_of url (by rw [h1]; exact Bool.true_or _)
      rw [hdet, h1]
      simp
    · have h1f : startsWithStr (lowerStr url) "mysql://".toList = false :=
        Bool.eq_false_iff.mpr h1
      by_cases h2 : startsWithStr (lowerStr url) "mysql2://".toList = true
      · have hdet := detect_eq_mysql_of url (by rw [h2]; exact Bool.or_true _)
        rw [hdet, h1f, h2]
        simp
      · have h2f : startsWithStr (lowerStr url) "mysql2://".toList = false :=
          Bool.eq_false_iff.mpr h2
        have hdet := detect_eq_postgresql_of_not_mysql url h1f h2f
        rw [hdet, h1f, h2f]
        simp
  · intro hp
    have hm1 : startsWithStr (lowerStr url) "mysql://".toList = false := by
      refine decide_eq_false ?_
      intro hpre
      rcases hp with h | h
      · have hq := prefix_head_eq hpre (of_decide_eq_true h)
          (by decide) (by decide)
        exact absurd hq (by decide)
      · have hq := prefix_head_eq hpre (of_decide_eq_true h)
          (by decide) (by decide)
        exact absurd hq (by decide)
    have hm2 : startsWithStr (lowerStr url) "mysql2://".toList = false := by
      refine decide_eq_false ?_
      intro hpre
      rcases hp with h | h
      · have hq := prefix_head_eq hpre (of_decide_eq_true h)
          (by decide) (by decide)
        exact absurd hq (by decide)
      · have hq := prefix_head_eq hpre (of_decide_eq_true h)
          (by decide) (by decide)
        exact absurd hq (by decide)
    exact detect_eq_postgresql_of_not_mysql url hm1 hm2
  · rintro ⟨hm1, hm2⟩
    exact detect_eq_postgresql_of_not_mysql url hm1 hm2

/-- Witness for C9: concrete URLs of each kind. -/
theorem detectDatabaseType_spec_witness :
    detectDatabaseType ("MySQL2://Host/db".toList) = DatabaseType.mysql
    ∧ detectDatabaseType ("postgres://h".toList) = DatabaseType.postgresql
    ∧ detectDatabaseType ("not a url".toList) = DatabaseType.postgresql :=
  ⟨(detectDatabaseType_spec ("MySQL2://Host/db".toList)).1.mpr (Or.inr (by decide)),
   (detectDatabaseType_spec ("postgres://h".toList)).2.1 (Or.inr (by decide)),
   (detectDatabaseType_spec ("not a url".toList)).2.2 (by decide)⟩

end DbAi
